import Mathlib

/-!
Shallow embedding of the analytics layer of the `reporte-nexus` repository
(files `src/total/analytics.py` and `src/membership/analytics.py`), together
with proofs of the specification claims about it.

Monetary amounts and all derived metrics are modelled over `ℚ` (exact
arithmetic); quantities that the source obtains through `sqrt`/`log2`
(standard deviations, Shannon entropy) live in `ℝ`.
-/

namespace ReporteNexus

/-! ## Pandas-like primitives -/

/-- Rounding to two decimal places, as pandas `.round(2)`. -/
def round2 (q : ℚ) : ℚ := (round (q * 100) : ℤ) / 100

/-- Rounding to one decimal place, as pandas `.round(1)`. -/
def round1 (q : ℚ) : ℚ := (round (q * 10) : ℤ) / 10

/-- Mean of a series, as pandas `Series.mean()` on a non-empty series. -/
def mean (xs : List ℚ) : ℚ := xs.sum / xs.length

/-- Percentage growth series: `Series.pct_change().fillna(0) * 100` on a
chronologically ordered series.  The first entry (pandas `NaN`) is filled
with `0`. -/
def growthRates : List ℚ → List ℚ
  | [] => []
  | x :: rest => 0 :: List.zipWith (fun prev cur => (cur - prev) / prev * 100) (x :: rest) rest

/-- Absolute change series: `Series.diff().fillna(0)`. -/
def absoluteChanges : List ℚ → List ℚ
  | [] => []
  | x :: rest => 0 :: List.zipWith (fun prev cur => cur - prev) (x :: rest) rest

/-- Sum of squared deviations from the mean. -/
def sumSqDev (xs : List ℚ) : ℚ := (xs.map (fun x => (x - mean xs) ^ 2)).sum

/-- Sample variance (`ddof = 1`), the square of pandas `Series.std()`. -/
def sampleVar (xs : List ℚ) : ℚ := sumSqDev xs / ((xs.length : ℚ) - 1)

/-- Population variance (`ddof = 0`). -/
def popVar (xs : List ℚ) : ℚ := sumSqDev xs / (xs.length : ℚ)

/-- pandas `Series.unique()`: the distinct values in first-occurrence order. -/
def uniqueFirst : List String → List String
  | [] => []
  | x :: xs => x :: (uniqueFirst xs).filter (· ≠ x)

/-- Distinct values sorted ascending, as the keys of a pandas `groupby`
(whose default is `sort=True`). -/
def sortedUnique (l : List String) : List String :=
  List.insertionSort (· ≤ ·) (uniqueFirst l)

/-- pandas `Series.idxmax()`: the index label of the first occurrence of the
maximum value (`none` on an empty series). -/
def idxmax (pairs : List (String × ℚ)) : Option String :=
  (pairs.foldl
    (fun acc p =>
      match acc with
      | none => some p
      | some q => if q.2 < p.2 then some p else acc)
    none).map (·.1)

/-- pandas `Series.idxmin()`: the index label of the first occurrence of the
minimum value. -/
def idxmin (pairs : List (String × ℚ)) : Option String :=
  (pairs.foldl
    (fun acc p =>
      match acc with
      | none => some p
      | some q => if p.2 < q.2 then some p else acc)
    none).map (·.1)

/-- Median of a series, as pandas `Series.median()`. -/
def median (xs : List ℚ) : ℚ :=
  let s := List.insertionSort (· ≤ ·) xs
  if s.length % 2 = 1 then s.getD (s.length / 2) 0
  else (s.getD (s.length / 2 - 1) 0 + s.getD (s.length / 2) 0) / 2

/-! ## Data model

One structure per table row, with the source's column names. -/

/-- A row of the unified all-payments table (`combined_df` of the total
pipeline). -/
structure Transaccion where
  amount : ℚ
  email : String
  category_clean : String
  month : String
  month_order : ℕ
deriving DecidableEq

/-- A row of the total pipeline's `monthly_summary` (one row per period,
sorted ascending by `month_order` upstream). -/
structure MonthlyRow where
  month : String
  month_order : ℕ
  ingresos_total : ℚ
  ticket_promedio : ℚ
  total_transacciones : ℚ
  clientes_unicos : ℚ
deriving DecidableEq

/-- A row of the total pipeline's `monthly_category_summary` (one row per
period × category present in the data). -/
structure CatMonthlyRow where
  month : String
  month_order : ℕ
  category_clean : String
  ingresos_total : ℚ
  ticket_promedio : ℚ
  total_transacciones : ℚ
  clientes_unicos : ℚ
deriving DecidableEq

/-- A row of the membership pipeline's unified table (`combined_df`). -/
structure Membresia where
  amount : ℚ
  email : String
  membership_plan_name : String
  month : String
  month_order : ℕ
deriving DecidableEq

/-- A row of the membership pipeline's `monthly_summary`. -/
structure MMonthlyRow where
  month : String
  month_order : ℕ
  ingresos_total : ℚ
  ticket_promedio : ℚ
  total_membresias : ℚ
  clientes_unicos : ℚ
deriving DecidableEq

/-- A value stored in one of the engine's dynamic dictionaries. -/
inductive Value where
  | num (q : ℚ)
  | str (s : String)
deriving DecidableEq

/-! ## Growth-rate bundles (`_calculate_growth_rates`) -/

/-- The four month-over-month series of the total engine's
`stats['growth_rates']` / `stats['absolute_changes']`. -/
structure GrowthBundle where
  ingresos : List ℚ
  transacciones : List ℚ
  ticket_promedio : List ℚ
  clientes_unicos : List ℚ
deriving DecidableEq

/-- `TotalAnalytics._calculate_growth_rates`, percentage part. -/
def calculateGrowthRates (ms : List MonthlyRow) : GrowthBundle where
  ingresos := growthRates (ms.map (·.ingresos_total))
  transacciones := growthRates (ms.map (·.total_transacciones))
  ticket_promedio := growthRates (ms.map (·.ticket_promedio))
  clientes_unicos := growthRates (ms.map (·.clientes_unicos))

/-- `TotalAnalytics._calculate_growth_rates`, absolute-change part. -/
def calculateAbsoluteChanges (ms : List MonthlyRow) : GrowthBundle where
  ingresos := absoluteChanges (ms.map (·.ingresos_total))
  transacciones := absoluteChanges (ms.map (·.total_transacciones))
  ticket_promedio := absoluteChanges (ms.map (·.ticket_promedio))
  clientes_unicos := absoluteChanges (ms.map (·.clientes_unicos))

/-- The four series of `MembershipAnalytics`' growth/absolute-change
bundles (`membresias` instead of `transacciones`). -/
structure MGrowthBundle where
  ingresos : List ℚ
  membresias : List ℚ
  ticket_promedio : List ℚ
  clientes_unicos : List ℚ
deriving DecidableEq

/-- `MembershipAnalytics._calculate_growth_rates`, percentage part. -/
def mCalculateGrowthRates (ms : List MMonthlyRow) : MGrowthBundle where
  ingresos := growthRates (ms.map (·.ingresos_total))
  membresias := growthRates (ms.map (·.total_membresias))
  ticket_promedio := growthRates (ms.map (·.ticket_promedio))
  clientes_unicos := growthRates (ms.map (·.clientes_unicos))

/-- `MembershipAnalytics._calculate_growth_rates`, absolute-change part. -/
def mCalculateAbsoluteChanges (ms : List MMonthlyRow) : MGrowthBundle where
  ingresos := absoluteChanges (ms.map (·.ingresos_total))
  membresias := absoluteChanges (ms.map (·.total_membresias))
  ticket_promedio := absoluteChanges (ms.map (·.ticket_promedio))
  clientes_unicos := absoluteChanges (ms.map (·.clientes_unicos))

/-! ## Specification-side description of a growth series (claim C1) -/

/-- Modelled from the spec: what the growth-rate and absolute-change series
derived from a metric series `xs` must look like — same length, first entry
defined as `0`, entry `i > 0` given by the spec's formulas, and an
all-zero result for a series of length 1. -/
def GrowthSeriesSpec (xs gs as : List ℚ) : Prop :=
  gs.length = xs.length ∧
  as.length = xs.length ∧
  (xs ≠ [] → gs.getD 0 0 = 0 ∧ as.getD 0 0 = 0) ∧
  (∀ i, 0 < i → i < xs.length →
    gs.getD i 0 = (xs.getD i 0 - xs.getD (i - 1) 0) / xs.getD (i - 1) 0 * 100 ∧
    as.getD i 0 = xs.getD i 0 - xs.getD (i - 1) 0) ∧
  (xs.length = 1 → gs = [0] ∧ as = [0])

theorem growthRates_length (xs : List ℚ) : (growthRates xs).length = xs.length := by
  cases xs with
  | nil => rfl
  | cons x rest => simp [growthRates]

theorem absoluteChanges_length (xs : List ℚ) :
    (absoluteChanges xs).length = xs.length := by
  cases xs with
  | nil => rfl
  | cons x rest => simp [absoluteChanges]

theorem zipWith_getD (f : ℚ → ℚ → ℚ) (l1 l2 : List ℚ) (n : ℕ)
    (h1 : n < l1.length) (h2 : n < l2.length) :
    (List.zipWith f l1 l2).getD n 0 = f (l1.getD n 0) (l2.getD n 0) := by
  have h : n < (List.zipWith f l1 l2).length := by
    rw [List.length_zipWith]; omega
  rw [List.getD_eq_getElem _ _ h, List.getD_eq_getElem _ _ h1, List.getD_eq_getElem _ _ h2,
    List.getElem_zipWith]

theorem growthRates_spec (xs : List ℚ) :
    GrowthSeriesSpec xs (growthRates xs) (absoluteChanges xs) := by
  refine ⟨growthRates_length xs, absoluteChanges_length xs, ?_, ?_, ?_⟩
  · intro hne
    match xs, hne with
    | x :: rest, _ => exact ⟨rfl, rfl⟩
  · intro i hi hlen
    match i, hi with
    | (n + 1), _ =>
      match xs, hlen with
      | x :: rest, hlen =>
        have hx : n < (x :: rest).length := by
          simpa using Nat.lt_of_succ_lt hlen
        have hr : n < rest.length := by
          simpa using Nat.succ_lt_succ_iff.mp (by simpa using hlen)
        constructor
        · rw [growthRates]
          simp only [List.getD_cons_succ, Nat.add_sub_cancel]
          rw [zipWith_getD _ _ _ _ hx hr]
        · rw [absoluteChanges]
          simp only [List.getD_cons_succ, Nat.add_sub_cancel]
          rw [zipWith_getD _ _ _ _ hx hr]
  · intro hlen
    match xs, hlen with
    | [x], _ => exact ⟨rfl, rfl⟩

/-- Claim C1: for every monthly metric series (revenue, transaction or
membership count, avg-ticket, unique-customers) the growth-rate series
equals `(current − previous) / previous × 100` for each period after the
first, the absolute-change series equals `current − previous`, the first
period's values are defined as exactly `0`, and for a series of length 1
every entry of both series is `0` — in both the total and the membership
engine. -/
theorem growth_rate_series_spec :
    (∀ ms : List MonthlyRow,
      GrowthSeriesSpec (ms.map (·.ingresos_total))
        (calculateGrowthRates ms).ingresos (calculateAbsoluteChanges ms).ingresos ∧
      GrowthSeriesSpec (ms.map (·.total_transacciones))
        (calculateGrowthRates ms).transacciones (calculateAbsoluteChanges ms).transacciones ∧
      GrowthSeriesSpec (ms.map (·.ticket_promedio))
        (calculateGrowthRates ms).ticket_promedio (calculateAbsoluteChanges ms).ticket_promedio ∧
      GrowthSeriesSpec (ms.map (·.clientes_unicos))
        (calculateGrowthRates ms).clientes_unicos (calculateAbsoluteChanges ms).clientes_unicos) ∧
    (∀ ms : List MMonthlyRow,
      GrowthSeriesSpec (ms.map (·.ingresos_total))
        (mCalculateGrowthRates ms).ingresos (mCalculateAbsoluteChanges ms).ingresos ∧
      GrowthSeriesSpec (ms.map (·.total_membresias))
        (mCalculateGrowthRates ms).membresias (mCalculateAbsoluteChanges ms).membresias ∧
      GrowthSeriesSpec (ms.map (·.ticket_promedio))
        (mCalculateGrowthRates ms).ticket_promedio (mCalculateAbsoluteChanges ms).ticket_promedio ∧
      GrowthSeriesSpec (ms.map (·.clientes_unicos))
        (mCalculateGrowthRates ms).clientes_unicos (mCalculateAbsoluteChanges ms).clientes_unicos) :=
  ⟨fun _ => ⟨growthRates_spec _, growthRates_spec _, growthRates_spec _, growthRates_spec _⟩,
   fun _ => ⟨growthRates_spec _, growthRates_spec _, growthRates_spec _, growthRates_spec _⟩⟩

/-! ## Projections (`_calculate_projections`) -/

/-- `TotalAnalytics._calculate_projection_confidence`: classify the
volatility (pandas `Series.std()`) of the revenue growth-rate series.
The source compares the standard deviation against `10` and `25`; since
both sides are nonnegative this is equivalent to comparing the sample
variance against `100` and `625`, which keeps the definition inside `ℚ`. -/
def confianzaProyeccion (g : List ℚ) : String :=
  if sampleVar g < 100 then "Alta"
  else if sampleVar g < 625 then "Media"
  else "Baja"

/-- `TotalAnalytics._calculate_projections`: the `stats['projections']`
dictionary, or `none` when fewer than 2 periods exist (the key is then
never written).  `growthIngresos` is the engine's
`stats['growth_rates']['ingresos']` series, read for the confidence label.
`rolling(window=2).mean().iloc[-1]` is the mean of the last two values. -/
def totalProjections (ms : List MonthlyRow) (growthIngresos : List ℚ) :
    Option (List (String × Value)) :=
  let rev := ms.map (·.ingresos_total)
  let trans := ms.map (·.total_transacciones)
  if 2 ≤ rev.length then
    let last := rev.getD (rev.length - 1) 0
    let lastT := trans.getD (trans.length - 1) 0
    let revTrend := last - rev.getD (rev.length - 2) 0
    let transTrend := lastT - trans.getD (trans.length - 2) 0
    let revMA :=
      if 3 ≤ rev.length then (rev.getD (rev.length - 2) 0 + last) / 2 else mean rev
    let transMA :=
      if 3 ≤ trans.length then (trans.getD (trans.length - 2) 0 + lastT) / 2 else mean trans
    some [("agosto_ingresos_estimados", .num (last + revTrend)),
          ("agosto_transacciones_estimadas", .num (lastT + transTrend)),
          ("agosto_ingresos_ma", .num revMA),
          ("agosto_transacciones_ma", .num transMA),
          ("tendencia_ingresos", .str (if 0 < revTrend then "Creciente" else "Decreciente")),
          ("tendencia_transacciones", .str (if 0 < transTrend then "Creciente" else "Decreciente")),
          ("confianza_proyeccion", .str (confianzaProyeccion growthIngresos))]
  else none

/-- `MembershipAnalytics._calculate_projections`: the base dictionary is
written for ≥ 2 periods; the two moving-average keys are appended only
when ≥ 3 periods exist. -/
def membershipProjections (ms : List MMonthlyRow) : Option (List (String × Value)) :=
  let rev := ms.map (·.ingresos_total)
  let mem := ms.map (·.total_membresias)
  if 2 ≤ rev.length then
    let last := rev.getD (rev.length - 1) 0
    let lastM := mem.getD (mem.length - 1) 0
    let revTrend := last - rev.getD (rev.length - 2) 0
    let memTrend := lastM - mem.getD (mem.length - 2) 0
    some
      ([("agosto_ingresos_estimados", .num (last + revTrend)),
        ("agosto_membresias_estimadas", .num (lastM + memTrend)),
        ("tendencia_ingresos", .str (if 0 < revTrend then "Creciente" else "Decreciente")),
        ("tendencia_membresias", .str (if 0 < memTrend then "Creciente" else "Decreciente"))] ++
       (if 3 ≤ rev.length then
          [("agosto_ingresos_ma", .num ((rev.getD (rev.length - 2) 0 + last) / 2)),
           ("agosto_membresias_ma", .num ((mem.getD (mem.length - 2) 0 + lastM) / 2))]
        else []))
  else none

/-- Whether a (possibly absent) projections dictionary carries the
moving-average revenue estimate key. -/
def maPresent (p : Option (List (String × Value))) : Bool :=
  p.elim false (fun d => (d.map Prod.fst).contains "agosto_ingresos_ma")

/-- Three-period sample summary with revenue series `[100, 150, 120]`. -/
def ejemploMensual : List MonthlyRow :=
  [⟨"Mayo", 1, 100, 10, 10, 5⟩, ⟨"Junio", 2, 150, 15, 10, 6⟩, ⟨"Julio", 3, 120, 12, 10, 4⟩]

/-- Witness for claim C1 at the spec's sample series `[100, 150, 120]`:
growth at the third period is `−20` and the absolute change is `−30`. -/
theorem growth_rate_series_spec_witness :
    (calculateGrowthRates ejemploMensual).ingresos.getD 2 0 = -20 ∧
    (calculateAbsoluteChanges ejemploMensual).ingresos.getD 2 0 = -30 := by
  obtain ⟨hlen, hlen', hfst, hstep, hone⟩ := (growth_rate_series_spec.1 ejemploMensual).1
  obtain ⟨hg, ha⟩ := hstep 2 (by decide) (by decide)
  constructor
  · rw [hg]; norm_num [ejemploMensual]
  · rw [ha]; norm_num [ejemploMensual]

/-- Lookup of a key in a possibly-absent projections dictionary. -/
def projLookup (p : Option (List (String × Value))) (k : String) : Option Value :=
  p.bind (fun d => d.lookup k)

/-- Two-period sample summary. -/
def dosPeriodos : List MonthlyRow :=
  [⟨"Junio", 1, 10, 5, 2, 3⟩, ⟨"Julio", 2, 20, 10, 2, 4⟩]

/-- Counterexample to claim C2 as stated: with exactly 2 periods the total
engine's projection dictionary already carries the moving-average key
`agosto_ingresos_ma` (holding the overall mean), so "moving-average fields
are present iff the period count ≥ 3" fails on the total engine. -/
theorem ma_fields_present_at_two_periods :
    dosPeriodos.length = 2 ∧
    maPresent (totalProjections dosPeriodos
      (calculateGrowthRates dosPeriodos).ingresos) = true := by
  constructor
  · rfl
  · simp [maPresent, totalProjections, dosPeriodos]

/-- Claim C2 (amended): the projection bundle is present iff the period
count is ≥ 2 in both engines (fewer periods simply omit the bundle); the
2-period moving-average keys are present iff the period count is ≥ 3 in
the membership engine, while in the total engine they are present
whenever the bundle is (period count ≥ 2), holding the overall mean when
exactly2 periods exist. -/
theorem projection_bundle_presence (ms : List MonthlyRow) (g : List ℚ)
    (mms : List MMonthlyRow) :
    ((totalProjections ms g).isSome ↔ 2 ≤ ms.length) ∧
    (maPresent (totalProjections ms g) = true ↔ 2 ≤ ms.length) ∧
    ((membershipProjections mms).isSome ↔ 2 ≤ mms.length) ∧
    (maPresent (membershipProjections mms) = true ↔ 3 ≤ mms.length) := by
  refine ⟨?_, ?_, ?_, ?_⟩
  · by_cases h : 2 ≤ ms.length <;> simp [totalProjections, h]
  · by_cases h : 2 ≤ ms.length <;> simp [totalProjections, maPresent, h]
  · by_cases h : 2 ≤ mms.length <;> simp [membershipProjections, h]
  · by_cases h : 2 ≤ mms.length
    · by_cases h3 : 3 ≤ mms.length <;>
        simp [membershipProjections, maPresent, h, h3]
    · have h3 : ¬ 3 ≤ mms.length := by omega
      simp [membershipProjections, maPresent, h, h3]

theorem trend_label_creciente (prev cur : ℚ) :
    ((if 0 < cur - prev then "Creciente" else "Decreciente") = "Creciente") ↔ prev < cur := by
  by_cases h : 0 < cur - prev
  · simp [h, sub_pos.mp h]
  · simp [h, not_lt.mpr (sub_nonpos.mp (not_lt.mp h))]

theorem trend_label_decreciente (prev cur : ℚ) :
    ((if 0 < cur - prev then "Creciente" else "Decreciente") = "Decreciente") ↔ cur ≤ prev := by
  by_cases h : 0 < cur - prev
  · simp [h, not_le.mpr (sub_pos.mp h)]
  · simp [h, sub_nonpos.mp (not_lt.mp h)]

/-- Claim C4: with at least 2 periods, the projected next-period value for
revenue and for count equals `last + (last − second_to_last)`, computed
independently for each series, and the trend label is `Creciente` exactly
when the delta is strictly positive and `Decreciente` otherwise (zero
delta maps to `Decreciente`) — in both engines. -/
theorem linear_projection_formula :
    (∀ (ms : List MonthlyRow) (g : List ℚ), 2 ≤ ms.length →
      let rev := ms.map (·.ingresos_total)
      let trans := ms.map (·.total_transacciones)
      let n := ms.length
      let p := totalProjections ms g
      projLookup p "agosto_ingresos_estimados" =
        some (.num (rev.getD (n - 1) 0 + (rev.getD (n - 1) 0 - rev.getD (n - 2) 0))) ∧
      projLookup p "agosto_transacciones_estimadas" =
        some (.num (trans.getD (n - 1) 0 + (trans.getD (n - 1) 0 - trans.getD (n - 2) 0))) ∧
      (projLookup p "tendencia_ingresos" = some (.str "Creciente") ↔
        rev.getD (n - 2) 0 < rev.getD (n - 1) 0) ∧
      (projLookup p "tendencia_ingresos" = some (.str "Decreciente") ↔
        rev.getD (n - 1) 0 ≤ rev.getD (n - 2) 0) ∧
      (projLookup p "tendencia_transacciones" = some (.str "Creciente") ↔
        trans.getD (n - 2) 0 < trans.getD (n - 1) 0) ∧
      (projLookup p "tendencia_transacciones" = some (.str "Decreciente") ↔
        trans.getD (n - 1) 0 ≤ trans.getD (n - 2) 0)) ∧
    (∀ mms : List MMonthlyRow, 2 ≤ mms.length →
      let rev := mms.map (·.ingresos_total)
      let mem := mms.map (·.total_membresias)
      let n := mms.length
      let p := membershipProjections mms
      projLookup p "agosto_ingresos_estimados" =
        some (.num (rev.getD (n - 1) 0 + (rev.getD (n - 1) 0 - rev.getD (n - 2) 0))) ∧
      projLookup p "agosto_membresias_estimadas" =
        some (.num (mem.getD (n - 1) 0 + (mem.getD (n - 1) 0 - mem.getD (n - 2) 0))) ∧
      (projLookup p "tendencia_ingresos" = some (.str "Creciente") ↔
        rev.getD (n - 2) 0 < rev.getD (n - 1) 0) ∧
      (projLookup p "tendencia_ingresos" = some (.str "Decreciente") ↔
        rev.getD (n - 1) 0 ≤ rev.getD (n - 2) 0) ∧
      (projLookup p "tendencia_membresias" = some (.str "Creciente") ↔
        mem.getD (n - 2) 0 < mem.getD (n - 1) 0) ∧
      (projLookup p "tendencia_membresias" = some (.str "Decreciente") ↔
        mem.getD (n - 1) 0 ≤ mem.getD (n - 2) 0)) := by
  constructor
  · intro ms g h rev trans n p
    have hlen : 2 ≤ (List.map (fun x => x.ingresos_total) ms).length := by simpa using h
    refine ⟨?_, ?_, ?_, ?_, ?_, ?_⟩ <;>
      simp [p, rev, trans, n, projLookup, totalProjections, hlen, h, List.lookup,
        trend_label_creciente, trend_label_decreciente]
  · intro mms h rev mem n p
    have hlen : 2 ≤ (List.map (fun x => x.ingresos_total) mms).length := by simpa using h
    refine ⟨?_, ?_, ?_, ?_, ?_, ?_⟩ <;>
      simp [p, rev, mem, n, projLookup, membershipProjections, hlen, h, List.lookup,
        trend_label_creciente, trend_label_decreciente]

/-- Witness for claim C4 at revenue series `[100, 150, 120]`: the
projection is `120 + (120 − 150) = 90` and the trend label is
`Decreciente`. -/
theorem linear_projection_formula_witness :
    2 ≤ ejemploMensual.length ∧
    projLookup (totalProjections ejemploMensual
        (calculateGrowthRates ejemploMensual).ingresos) "agosto_ingresos_estimados" =
      some (.num 90) ∧
    projLookup (totalProjections ejemploMensual
        (calculateGrowthRates ejemploMensual).ingresos) "tendencia_ingresos" =
      some (.str "Decreciente") := by
  have h := linear_projection_formula.1 ejemploMensual
    (calculateGrowthRates ejemploMensual).ingresos (by decide)
  obtain ⟨h1, h2, h3, h4, h5, h6⟩ := h
  refine ⟨by decide, ?_, ?_⟩
  · rw [h1]
    norm_num [ejemploMensual]
  · exact h4.mpr (by norm_num [ejemploMensual])

/-! ## Category / plan summary tables (`_calculate_category_stats`,
`_calculate_plan_stats`) -/

/-- A row of the total engine's `stats['by_category']` table. -/
structure CatRow where
  category : String
  ingresos : ℚ
  cantidad : ℚ
  ticket_promedio : ℚ
  ticket_mediano : ℚ
  clientes_unicos : ℚ
deriving DecidableEq

/-- A row of the membership engine's `stats['by_plan']` table. -/
structure PlanRow where
  plan : String
  ingresos : ℚ
  cantidad : ℚ
  ticket_promedio : ℚ
  clientes_unicos : ℚ
deriving DecidableEq

/-- Descending-by-revenue order used by `sort_values('ingresos', ascending=False)`. -/
def revDescRel (a b : CatRow) : Prop := b.ingresos ≤ a.ingresos

instance : DecidableRel revDescRel :=
  fun a b => inferInstanceAs (Decidable (b.ingresos ≤ a.ingresos))

instance : IsTotal CatRow revDescRel := ⟨fun a b => le_total b.ingresos a.ingresos⟩

instance : IsTrans CatRow revDescRel := ⟨fun _ _ _ hab hbc => le_trans hbc hab⟩

/-- Descending-by-revenue order on plan rows. -/
def planDescRel (a b : PlanRow) : Prop := b.ingresos ≤ a.ingresos

instance : DecidableRel planDescRel :=
  fun a b => inferInstanceAs (Decidable (b.ingresos ≤ a.ingresos))

instance : IsTotal PlanRow planDescRel := ⟨fun a b => le_total b.ingresos a.ingresos⟩

instance : IsTrans PlanRow planDescRel := ⟨fun _ _ _ hab hbc => le_trans hbc hab⟩

/-- The `groupby('category_clean').agg(...).round(2)` table, one row per
distinct category, keys in the sorted order pandas' `groupby` produces. -/
def groupedCategoryRows (df : List Transaccion) : List CatRow :=
  (sortedUnique (df.map (·.category_clean))).map (fun c =>
    let amts := (df.filter (fun t => t.category_clean = c)).map (·.amount)
    let emails := (df.filter (fun t => t.category_clean = c)).map (·.email)
    { category := c
      ingresos := round2 amts.sum
      cantidad := round2 (amts.length : ℚ)
      ticket_promedio := round2 (mean amts)
      ticket_mediano := round2 (median amts)
      clientes_unicos := round2 ((emails.dedup.length : ℚ)) })

/-- `TotalAnalytics._calculate_category_stats`: the grouped table sorted
descending by revenue. -/
def calculateCategoryStats (df : List Transaccion) : List CatRow :=
  List.insertionSort revDescRel (groupedCategoryRows df)

/-- `stats['trends']['mejor_categoria']`: the first row of the sorted
category table (`by_category.index[0]`). -/
def mejorCategoria (df : List Transaccion) : Option String :=
  ((calculateCategoryStats df).head?).map (·.category)

/-- The membership engine's `groupby('membership_plan_name')` table. -/
def groupedPlanRows (df : List Membresia) : List PlanRow :=
  (sortedUnique (df.map (·.membership_plan_name))).map (fun p =>
    let amts := (df.filter (fun t => t.membership_plan_name = p)).map (·.amount)
    let emails := (df.filter (fun t => t.membership_plan_name = p)).map (·.email)
    { plan := p
      ingresos := round2 amts.sum
      cantidad := round2 (amts.length : ℚ)
      ticket_promedio := round2 (mean amts)
      clientes_unicos := round2 ((emails.dedup.length : ℚ)) })

/-- `MembershipAnalytics._calculate_plan_stats`: the grouped table sorted
descending by revenue. -/
def calculatePlanStats (df : List Membresia) : List PlanRow :=
  List.insertionSort planDescRel (groupedPlanRows df)

/-- Claim C7: in both engines the summary rows are sorted descending by
revenue, rows with equal revenue keep the relative order the grouping
produced (the insertion sort is stable), and the best category/plan — the
first row after the sort — attains the maximum revenue. -/
theorem category_rows_sorted_desc :
    (∀ df : List Transaccion,
      List.Sorted revDescRel (calculateCategoryStats df) ∧
      (∀ a b : CatRow, a.ingresos = b.ingresos →
        List.Sublist [a, b] (groupedCategoryRows df) →
        List.Sublist [a, b] (calculateCategoryStats df)) ∧
      (∀ b rest, calculateCategoryStats df = b :: rest →
        mejorCategoria df = some b.category ∧
        ∀ r ∈ calculateCategoryStats df, r.ingresos ≤ b.ingresos)) ∧
    (∀ df : List Membresia,
      List.Sorted planDescRel (calculatePlanStats df) ∧
      (∀ a b : PlanRow, a.ingresos = b.ingresos →
        List.Sublist [a, b] (groupedPlanRows df) →
        List.Sublist [a, b] (calculatePlanStats df)) ∧
      (∀ b rest, calculatePlanStats df = b :: rest →
        ∀ r ∈ calculatePlanStats df, r.ingresos ≤ b.ingresos)) := by
  constructor
  · intro df
    refine ⟨List.sorted_insertionSort _ _, ?_, ?_⟩
    · intro a b heq hsub
      exact List.pair_sublist_insertionSort (heq.ge) hsub
    · intro b rest hEq
      have hs : List.Sorted revDescRel (b :: rest) := by
        rw [← hEq]; exact List.sorted_insertionSort _ _
      constructor
      · simp [mejorCategoria, hEq]
      · intro r hr
        rw [hEq] at hr
        rcases List.mem_cons.mp hr with h | h
        · exact h ▸ le_refl _
        · exact List.rel_of_sorted_cons hs r h
  · intro df
    refine ⟨List.sorted_insertionSort _ _, ?_, ?_⟩
    · intro a b heq hsub
      exact List.pair_sublist_insertionSort (heq.ge) hsub
    · intro b rest hEq
      have hs : List.Sorted planDescRel (b :: rest) := by
        rw [← hEq]; exact List.sorted_insertionSort _ _
      intro r hr
      rw [hEq] at hr
      rcases List.mem_cons.mp hr with h | h
      · exact h ▸ le_refl _
      · exact List.rel_of_sorted_cons hs r h

/-- Two-category sample unified table: category `A` with revenue 30,
category `B` with revenue 50. -/
def dfEjemplo : List Transaccion :=
  [⟨30, "a", "A", "Mayo", 1⟩, ⟨50, "b", "B", "Mayo", 1⟩]

/-- Witness for claim C7: on `dfEjemplo` the table is `[B-row, A-row]`
(revenue 50 before 30), the best category is `B`, and every row's revenue
is bounded by the first row's. -/
theorem category_rows_sorted_desc_witness :
    calculateCategoryStats dfEjemplo =
      [⟨"B", 50, 1, 50, 50, 1⟩, ⟨"A", 30, 1, 30, 30, 1⟩] ∧
    mejorCategoria dfEjemplo = some "B" ∧
    ∀ r ∈ calculateCategoryStats dfEjemplo, r.ingresos ≤ 50 := by
  have hEq : calculateCategoryStats dfEjemplo =
      [⟨"B", 50, 1, 50, 50, 1⟩, ⟨"A", 30, 1, 30, 30, 1⟩] := by
    norm_num +decide [calculateCategoryStats, groupedCategoryRows, sortedUnique,
      uniqueFirst, List.insertionSort, List.orderedInsert, revDescRel, round2,
      round_eq, mean, median, dfEjemplo, List.dedup]
  have h := ((category_rows_sorted_desc.1 dfEjemplo).2.2 _ _ hEq)
  exact ⟨hEq, h.1, h.2⟩

/-! ## Seasonality (`_analyze_seasonality`, extended variant only) -/

/-- pandas `Series.std()`: the square root of the sample variance
(`ddof = 1`). -/
noncomputable def pandasStd (xs : List ℚ) : ℝ := Real.sqrt ((sampleVar xs : ℚ) : ℝ)

/-- `TotalAnalytics._analyze_seasonality`: the coefficient of variation
`std / mean * 100` of the period-level revenue series. -/
noncomputable def seasonalityCV (xs : List ℚ) : ℝ :=
  pandasStd xs / ((mean xs : ℚ) : ℝ) * 100

/-- The qualitative seasonality label derived from the coefficient of
variation. -/
noncomputable def seasonalityPattern (xs : List ℚ) : String :=
  if 20 < seasonalityCV xs then "Alta variabilidad"
  else if 10 < seasonalityCV xs then "Moderada variabilidad"
  else "Baja variabilidad"

/-- Modelled from the spec: the coefficient of variation built from the
population standard deviation (`ddof = 0`), as the spec's formula reads. -/
noncomputable def populationCV (xs : List ℚ) : ℝ :=
  Real.sqrt ((popVar xs : ℚ) : ℝ) / ((mean xs : ℚ) : ℝ) * 100

/-- Counterexample to claim C5 as stated: on the revenue series
`[100, 300]` the population-std coefficient of variation is `50`, but the
engine's coefficient (pandas sample std, `ddof = 1`) differs from it. -/
theorem seasonality_cv_not_population :
    populationCV [100, 300] = 50 ∧
    seasonalityCV [100, 300] ≠ populationCV [100, 300] := by
  have hmean : mean [100, 300] = (200 : ℚ) := by norm_num [mean]
  have hpop : popVar [100, 300] = (10000 : ℚ) := by
    norm_num [popVar, sumSqDev, hmean]
  have hsamp : sampleVar [100, 300] = (20000 : ℚ) := by
    norm_num [sampleVar, sumSqDev, hmean]
  have hp : populationCV [100, 300] = 50 := by
    rw [populationCV, hpop, hmean]
    rw [show ((10000 : ℚ) : ℝ) = 100 ^ 2 by norm_num]
    rw [Real.sqrt_sq (by norm_num : (0:ℝ) ≤ 100)]
    norm_num
  refine ⟨hp, ?_⟩
  rw [hp, seasonalityCV, pandasStd, hsamp, hmean]
  rw [show ((20000 : ℚ) : ℝ) = 20000 by norm_num, show ((200 : ℚ) : ℝ) = 200 by norm_num]
  intro h
  have hs : Real.sqrt 20000 = 100 := by
    field_simp at h
    linarith [h]
  have hsq := Real.sq_sqrt (by norm_num : (0:ℝ) ≤ (20000 : ℝ))
  rw [hs] at hsq
  norm_num at hsq

/-- Claim C5 (amended): the seasonality coefficient of variation is the
sample (`ddof = 1`) standard deviation of the period-level revenue series
divided by its mean, times 100 — characterised by its square and its sign
— and the label is `Alta variabilidad` iff the coefficient exceeds 20,
`Moderada variabilidad` iff it lies in `(10, 20]`, and `Baja variabilidad`
iff it is at most 10. -/
theorem seasonality_cv_sample_std (xs : List ℚ) (hlen : 2 ≤ xs.length)
    (hm : 0 < mean xs) :
    seasonalityCV xs ^ 2 * ((mean xs : ℚ) : ℝ) ^ 2 = ((sampleVar xs : ℚ) : ℝ) * 10000 ∧
    0 ≤ seasonalityCV xs ∧
    (seasonalityPattern xs = "Alta variabilidad" ↔ 20 < seasonalityCV xs) ∧
    (seasonalityPattern xs = "Moderada variabilidad" ↔
      (10 < seasonalityCV xs ∧ seasonalityCV xs ≤ 20)) ∧
    (seasonalityPattern xs = "Baja variabilidad" ↔ seasonalityCV xs ≤ 10) := by
  have hvar : (0 : ℚ) ≤ sampleVar xs := by
    have hssd : (0 : ℚ) ≤ sumSqDev xs := by
      apply List.sum_nonneg
      intro y hy
      obtain ⟨x, _, rfl⟩ := List.mem_map.mp hy
      positivity
    have hden : (0 : ℚ) ≤ (xs.length : ℚ) - 1 := by
      have : (2 : ℚ) ≤ (xs.length : ℚ) := by exact_mod_cast hlen
      linarith
    exact div_nonneg hssd hden
  have hvr : (0 : ℝ) ≤ ((sampleVar xs : ℚ) : ℝ) := by exact_mod_cast hvar
  have hmr : (0 : ℝ) < ((mean xs : ℚ) : ℝ) := by exact_mod_cast hm
  refine ⟨?_, ?_, ?_, ?_, ?_⟩
  · have hcv : seasonalityCV xs * ((mean xs : ℚ) : ℝ) =
        Real.sqrt ((sampleVar xs : ℚ) : ℝ) * 100 := by
      rw [seasonalityCV, pandasStd]
      field_simp
    calc seasonalityCV xs ^ 2 * ((mean xs : ℚ) : ℝ) ^ 2
        = (seasonalityCV xs * ((mean xs : ℚ) : ℝ)) ^ 2 := by ring
      _ = (Real.sqrt ((sampleVar xs : ℚ) : ℝ)) ^ 2 * 100 ^ 2 := by rw [hcv]; ring
      _ = ((sampleVar xs : ℚ) : ℝ) * 10000 := by rw [Real.sq_sqrt hvr]; norm_num
  · rw [seasonalityCV, pandasStd]
    positivity
  · rw [seasonalityPattern]
    split_ifs with h20 h10
    · simp [h20]
    · simp +decide [h20]
    · simp +decide [h20]
  · rw [seasonalityPattern]
    split_ifs with h20 h10
    · simp +decide
      intro _
      linarith
    · simp [h10, not_lt.mp h20]
    · simp +decide [h10]
  · rw [seasonalityPattern]
    split_ifs with h20 h10
    · simp +decide
      linarith
    · simp +decide
      linarith
    · simp [not_lt.mp h10]

/-- Witness for claim C5 at the revenue series `[100, 300]`: the
hypotheses hold there and the coefficient of variation is nonnegative. -/
theorem seasonality_cv_sample_std_witness :
    2 ≤ ([100, 300] : List ℚ).length ∧ 0 < mean [100, 300] ∧
    0 ≤ seasonalityCV [100, 300] :=
  ⟨by decide, by norm_num [mean],
    (seasonality_cv_sample_std [100, 300] (by decide) (by norm_num [mean])).2.1⟩

/-! ## Diversity metrics (`_calculate_diversity_metrics`, extended
variant only) -/

/-- Market shares: each category's revenue divided by the summed category
revenues (`category_revenues / total_revenue`). -/
def marketShares (revs : List ℚ) : List ℚ := revs.map (· / revs.sum)

/-- Herfindahl-Hirschman index: the sum of squared market shares. -/
def hhiIndex (revs : List ℚ) : ℚ := ((marketShares revs).map (· ^ 2)).sum

/-- Shannon entropy `−Σ share · log2(share + 1e-10)`; the source adds the
epsilon `1e-10` inside the logarithm to guard against `log(0)`. -/
noncomputable def shannonEntropy (revs : List ℚ) : ℝ :=
  -(((marketShares revs).map
      (fun s : ℚ => (s : ℝ) * Real.logb 2 ((s : ℝ) + 1 / 10 ^ 10))).sum)

/-- The qualitative concentration label derived from the HHI. -/
def concentrationLevel (revs : List ℚ) : String :=
  if 1 / 2 < hhiIndex revs then "Alta concentración"
  else if 1 / 4 < hhiIndex revs then "Concentración moderada"
  else "Baja concentración"

/-- `market_shares.max()`: the dominant category's share. -/
def dominantCategoryShare (revs : List ℚ) : ℚ :=
  ((marketShares revs).maximum).unbot' 0

/-- `len(category_revenues)`: the number of rows of the category revenue
table. -/
def categoryCount (revs : List ℚ) : ℕ := revs.length

/-- Counterexample to claim C6 as stated: for a single category holding
100% of revenue the engine's Shannon entropy is not exactly `0` — the
epsilon inside `log2` makes it `−log2(1 + 1e-10) < 0`. -/
theorem shannon_entropy_single_not_zero : shannonEntropy [100] ≠ 0 := by
  have hs : marketShares [100] = [1] := by norm_num [marketShares]
  have hlog : 0 < Real.logb 2 ((1 : ℝ) + 1 / 10 ^ 10) :=
    Real.logb_pos (by norm_num) (by norm_num)
  rw [shannonEntropy, hs]
  simp only [List.map_cons, List.map_nil, List.sum_cons, List.sum_nil, add_zero]
  push_cast
  intro h
  rw [neg_eq_zero] at h
  rw [one_mul] at h
  exact absurd h (ne_of_gt hlog)

/-- Claim C6 (amended): for a single category holding 100% of revenue the
HHI is exactly `1`, the Shannon entropy is `−log2(1 + 1e-10)` — strictly
negative, approximately `0` but not exactly — and the concentration label
is `Alta concentración`; for two categories with shares `[0.5, 0.5]` the
HHI is exactly `1/2` and the entropy is `−log2(0.5 + 1e-10)` — slightly
below `1` bit; the labels follow `HHI > 0.5 → Alta`, `> 0.25 → Moderada`,
else `Baja`. -/
theorem diversity_vectors_with_epsilon :
    hhiIndex [100] = 1 ∧
    shannonEntropy [100] = -Real.logb 2 (1 + 1 / 10 ^ 10) ∧
    shannonEntropy [100] < 0 ∧
    concentrationLevel [100] = "Alta concentración" ∧
    hhiIndex [50, 50] = 1 / 2 ∧
    shannonEntropy [50, 50] = -Real.logb 2 (1 / 2 + 1 / 10 ^ 10) ∧
    shannonEntropy [50, 50] < 1 ∧
    (∀ revs : List ℚ,
      (concentrationLevel revs = "Alta concentración" ↔ 1 / 2 < hhiIndex revs) ∧
      (concentrationLevel revs = "Concentración moderada" ↔
        (1 / 4 < hhiIndex revs ∧ hhiIndex revs ≤ 1 / 2)) ∧
      (concentrationLevel revs = "Baja concentración" ↔ hhiIndex revs ≤ 1 / 4)) := by
  have hs1 : marketShares [100] = [1] := by norm_num [marketShares]
  have hs2 : marketShares [50, 50] = [1 / 2, 1 / 2] := by norm_num [marketShares]
  have hhi1 : hhiIndex [100] = 1 := by rw [hhiIndex, hs1]; norm_num
  have hent1 : shannonEntropy [100] = -Real.logb 2 (1 + 1 / 10 ^ 10) := by
    rw [shannonEntropy, hs1]
    simp
  have hent2 : shannonEntropy [50, 50] = -Real.logb 2 (1 / 2 + 1 / 10 ^ 10) := by
    rw [shannonEntropy, hs2]
    simp only [List.map_cons, List.map_nil, List.sum_cons, List.sum_nil, add_zero]
    push_cast
    ring_nf
  refine ⟨hhi1, hent1, ?_, ?_, ?_, hent2, ?_, ?_⟩
  · rw [hent1]
    have : 0 < Real.logb 2 ((1 : ℝ) + 1 / 10 ^ 10) :=
      Real.logb_pos (by norm_num) (by norm_num)
    linarith
  · rw [concentrationLevel, hhi1]
    norm_num
  · rw [hhiIndex, hs2]; norm_num
  · rw [hent2]
    have hhalf : Real.logb 2 ((1 : ℝ) / 2) = -1 := by
      rw [show (1 : ℝ) / 2 = 2⁻¹ by norm_num, Real.logb_inv,
        Real.logb_self_eq_one (by norm_num)]
    have hmono : Real.logb 2 ((1 : ℝ) / 2) < Real.logb 2 (1 / 2 + 1 / 10 ^ 10) :=
      Real.logb_lt_logb (by norm_num) (by norm_num) (by norm_num)
    rw [hhalf] at hmono
    linarith
  · intro revs
    refine ⟨?_, ?_, ?_⟩
    · rw [concentrationLevel]
      split_ifs with h2 h4
      · exact iff_of_true rfl h2
      · exact iff_of_false (by decide) h2
      · exact iff_of_false (by decide) h2
    · rw [concentrationLevel]
      split_ifs with h2 h4
      · exact iff_of_false (by decide) (fun hc => absurd hc.2 (not_le.mpr h2))
      · exact iff_of_true rfl ⟨h4, not_lt.mp h2⟩
      · exact iff_of_false (by decide) (fun hc => h4 hc.1)
    · rw [concentrationLevel]
      split_ifs with h2 h4
      · exact iff_of_false (by decide) (not_le.mpr (lt_trans (by norm_num) h2))
      · exact iff_of_false (by decide) (not_le.mpr h4)
      · exact iff_of_true rfl (not_lt.mp h4)

/-! ## Invariants of the diversity bundle (claim C10) -/

theorem sum_map_div (l : List ℚ) (c : ℚ) : (l.map (· / c)).sum = l.sum / c := by
  induction l with
  | nil => simp
  | cons a t ih => simp [ih, add_div]

theorem mem_uniqueFirst {a : String} : ∀ {l : List String}, a ∈ uniqueFirst l ↔ a ∈ l := by
  intro l
  induction l with
  | nil => simp [uniqueFirst]
  | cons x xs ih =>
    simp only [uniqueFirst, List.mem_cons, List.mem_filter]
    constructor
    · rintro (rfl | ⟨h, _⟩)
      · exact Or.inl rfl
      · exact Or.inr (ih.mp h)
    · rintro (rfl | h)
      · exact Or.inl rfl
      · by_cases hx : a = x
        · exact Or.inl hx
        · exact Or.inr ⟨ih.mpr h, by simpa using hx⟩

theorem nodup_uniqueFirst : ∀ l : List String, (uniqueFirst l).Nodup := by
  intro l
  induction l with
  | nil => simp [uniqueFirst]
  | cons x xs ih =>
    rw [uniqueFirst, List.nodup_cons]
    constructor
    · intro hmem
      have hx := (List.mem_filter.mp hmem).2
      simp at hx
    · exact ih.filter _

theorem toFinset_uniqueFirst (l : List String) :
    (uniqueFirst l).toFinset = l.toFinset := by
  ext a
  simp [mem_uniqueFirst]

theorem round2_nonneg {q : ℚ} (h : 0 ≤ q) : 0 ≤ round2 q := by
  rw [round2]
  have hr : (0 : ℤ) ≤ round (q * 100) := by
    rw [round_eq]
    apply Int.floor_nonneg.mpr
    linarith
  positivity

theorem sum_sq_le_sq_sum (l : List ℚ) (h : ∀ x ∈ l, 0 ≤ x) :
    (l.map (· ^ 2)).sum ≤ l.sum ^ 2 := by
  induction l with
  | nil => simp
  | cons a t ih =>
    have ha : 0 ≤ a := h a (List.mem_cons_self a t)
    have ht : ∀ x ∈ t, 0 ≤ x := fun x hx => h x (List.mem_cons_of_mem a hx)
    have hts : 0 ≤ t.sum := List.sum_nonneg ht
    have := ih ht
    simp only [List.map_cons, List.sum_cons]
    nlinarith

theorem stats_revenue_nonneg (df : List Transaccion)
    (hamounts : ∀ t ∈ df, 0 ≤ t.amount) :
    ∀ r ∈ calculateCategoryStats df, 0 ≤ r.ingresos := by
  intro r hr
  have hr' : r ∈ groupedCategoryRows df :=
    ((List.perm_insertionSort revDescRel _).mem_iff).mp hr
  obtain ⟨c, _, rfl⟩ := List.mem_map.mp hr'
  apply round2_nonneg
  apply List.sum_nonneg
  intro a ha
  obtain ⟨t, ht, rfl⟩ := List.mem_map.mp ha
  exact hamounts t (List.mem_of_mem_filter ht)

/-- Counterexample to claim C10 as stated: the claim quantifies over every
non-empty revenue table with positive total, but with a negative category
revenue (`[2, −1]`, total `1 > 0`) the shares are `[2, −1]` and the HHI is
`5`, outside `(0, 1]`. -/
theorem hhi_outside_unit_interval_on_negative_revenue :
    (([2, -1] : List ℚ) ≠ [] ∧ 0 < ([2, -1] : List ℚ).sum) ∧
    hhiIndex [2, -1] = 5 ∧ ¬hhiIndex [2, -1] ≤ 1 := by
  have hh : hhiIndex [2, -1] = 5 := by norm_num [hhiIndex, marketShares]
  refine ⟨⟨by simp, by norm_num⟩, hh, ?_⟩
  rw [hh]
  norm_num

/-- Claim C10 (amended): for a transaction table with nonnegative amounts
whose category table has positive total revenue, the market shares are the
category revenues divided by their own sum and add up to exactly 1,
`dominant_category_share` is a share and bounds every share,
`category_count` equals the number of distinct categories of the unified
table, and the HHI lies in `(0, 1]`. -/
theorem diversity_invariants (df : List Transaccion)
    (hamounts : ∀ t ∈ df, 0 ≤ t.amount)
    (htot : 0 < ((calculateCategoryStats df).map (·.ingresos)).sum) :
    (marketShares ((calculateCategoryStats df).map (·.ingresos))).sum = 1 ∧
    dominantCategoryShare ((calculateCategoryStats df).map (·.ingresos)) ∈
      marketShares ((calculateCategoryStats df).map (·.ingresos)) ∧
    (∀ s ∈ marketShares ((calculateCategoryStats df).map (·.ingresos)),
      s ≤ dominantCategoryShare ((calculateCategoryStats df).map (·.ingresos))) ∧
    categoryCount ((calculateCategoryStats df).map (·.ingresos)) =
      (df.map (·.category_clean)).toFinset.card ∧
    0 < hhiIndex ((calculateCategoryStats df).map (·.ingresos)) ∧
    hhiIndex ((calculateCategoryStats df).map (·.ingresos)) ≤ 1 := by
  set revs := (calculateCategoryStats df).map (·.ingresos) with hrevs
  have hT : revs.sum ≠ 0 := ne_of_gt htot
  have hsum : (marketShares revs).sum = 1 := by
    rw [marketShares, sum_map_div, div_self hT]
  have hnn : ∀ s ∈ marketShares revs, 0 ≤ s := by
    intro s hs
    obtain ⟨r, hr, rfl⟩ := List.mem_map.mp hs
    apply div_nonneg ?_ (le_of_lt htot)
    obtain ⟨row, hrow, rfl⟩ := List.mem_map.mp hr
    exact stats_revenue_nonneg df hamounts row hrow
  have hne : marketShares revs ≠ [] := by
    intro h
    rw [h] at hsum
    simp at hsum
  refine ⟨hsum, ?_, ?_, ?_, ?_, ?_⟩
  · cases hmax : (marketShares revs).maximum with
    | bot => exact absurd (List.maximum_eq_bot.mp hmax) hne
    | coe m =>
      rw [dominantCategoryShare, hmax, WithBot.unbot'_coe]
      exact List.maximum_mem hmax
  · intro s hs
    cases hmax : (marketShares revs).maximum with
    | bot => exact absurd (List.maximum_eq_bot.mp hmax) hne
    | coe m =>
      rw [dominantCategoryShare, hmax, WithBot.unbot'_coe]
      exact List.le_maximum_of_mem hs hmax
  · have h1 : revs.length = (groupedCategoryRows df).length := by
      rw [hrevs, List.length_map, calculateCategoryStats,
        (List.perm_insertionSort revDescRel (groupedCategoryRows df)).length_eq]
    have h2 : (groupedCategoryRows df).length =
        (uniqueFirst (df.map (·.category_clean))).length := by
      rw [groupedCategoryRows, List.length_map, sortedUnique,
        (List.perm_insertionSort (· ≤ ·)
          (uniqueFirst (df.map (·.category_clean)))).length_eq]
    have h3 : (uniqueFirst (df.map (·.category_clean))).length =
        (df.map (·.category_clean)).toFinset.card := by
      rw [← toFinset_uniqueFirst, List.toFinset_card_of_nodup (nodup_uniqueFirst _)]
    rw [categoryCount, h1, h2, h3]
  · have hex : ∃ s ∈ marketShares revs, s ≠ 0 := by
      by_contra hall
      push_neg at hall
      have h0 := List.sum_eq_zero hall
      rw [hsum] at h0
      exact one_ne_zero h0
    obtain ⟨s0, hs0mem, hs0⟩ := hex
    have hs0sq : (0 : ℚ) < s0 ^ 2 := by positivity
    have hmem : s0 ^ 2 ∈ (marketShares revs).map (· ^ 2) :=
      List.mem_map_of_mem _ hs0mem
    have hle : s0 ^ 2 ≤ ((marketShares revs).map (· ^ 2)).sum := by
      apply List.single_le_sum ?_ _ hmem
      intro x hx
      obtain ⟨y, _, rfl⟩ := List.mem_map.mp hx
      positivity
    rw [hhiIndex]
    exact lt_of_lt_of_le hs0sq hle
  · have hb := sum_sq_le_sq_sum (marketShares revs) hnn
    rw [hsum] at hb
    simpa [hhiIndex] using hb

/-- Witness for claim C10 on `dfEjemplo`: its amounts are nonnegative, the
category table's total revenue is positive, and then the shares sum to 1
with the HHI at most 1. -/
theorem diversity_invariants_witness :
    (∀ t ∈ dfEjemplo, 0 ≤ t.amount) ∧
    0 < ((calculateCategoryStats dfEjemplo).map (·.ingresos)).sum ∧
    (marketShares ((calculateCategoryStats dfEjemplo).map (·.ingresos))).sum = 1 ∧
    hhiIndex ((calculateCategoryStats dfEjemplo).map (·.ingresos)) ≤ 1 := by
  have h1 : ∀ t ∈ dfEjemplo, 0 ≤ t.amount := by
    intro t ht
    simp only [dfEjemplo, List.mem_cons, List.not_mem_nil, or_false] at ht
    rcases ht with rfl | rfl <;> norm_num
  have hstats : calculateCategoryStats dfEjemplo =
      [⟨"B", 50, 1, 50, 50, 1⟩, ⟨"A", 30, 1, 30, 30, 1⟩] := by
    norm_num +decide [calculateCategoryStats, groupedCategoryRows, sortedUnique,
      uniqueFirst, List.insertionSort, List.orderedInsert, revDescRel, round2,
      round_eq, mean, median, dfEjemplo, List.dedup]
  have h2 : 0 < ((calculateCategoryStats dfEjemplo).map (·.ingresos)).sum := by
    rw [hstats]
    norm_num
  exact ⟨h1, h2, (diversity_invariants dfEjemplo h1 h2).1,
    (diversity_invariants dfEjemplo h1 h2).2.2.2.2.2⟩

/-! ## Per-category / per-plan growth (`_calculate_category_growth`,
`_calculate_plan_growth`) -/

/-- `TotalAnalytics._calculate_category_growth`: for each category of the
unified table (in `unique()` order), keep it only when its slice of the
monthly category summary has more than one row; the kept value is the
revenue and count growth series over the slice sorted by `month_order`. -/
def calculateCategoryGrowth (df : List Transaccion) (mcs : List CatMonthlyRow) :
    List (String × (List ℚ × List ℚ)) :=
  (uniqueFirst (df.map (·.category_clean))).filterMap (fun c =>
    let catData := mcs.filter (fun r => r.category_clean = c)
    if 1 < catData.length then
      let sorted := List.insertionSort
        (fun a b : CatMonthlyRow => a.month_order ≤ b.month_order) catData
      some (c, (growthRates (sorted.map (·.ingresos_total)),
                growthRates (sorted.map (·.total_transacciones))))
    else none)

/-- One entry of the membership engine's `stats['plan_growth']`. -/
structure PlanGrowthEntry where
  revenue_growth : List ℚ
  count_growth : List ℚ
  revenue_change : List ℚ
deriving DecidableEq

/-- `MembershipAnalytics._calculate_plan_growth`: for each plan of the
unified table, group its rows by month (pandas sorts the group keys) and
keep the plan only when it has more than one monthly group. -/
def calculatePlanGrowth (df : List Membresia) : List (String × PlanGrowthEntry) :=
  (uniqueFirst (df.map (·.membership_plan_name))).filterMap (fun p =>
    let planData := df.filter (fun t => t.membership_plan_name = p)
    let months := sortedUnique (planData.map (·.month))
    if 1 < months.length then
      let revs := months.map
        (fun m => ((planData.filter (fun t => t.month = m)).map (·.amount)).sum)
      let cnts := months.map
        (fun m => (((planData.filter (fun t => t.month = m)).map (·.email)).length : ℚ))
      some (p, ⟨growthRates revs, growthRates cnts, absoluteChanges revs⟩)
    else none)

theorem lookup_isSome_iff {β : Type _} (al : List (String × β)) (k : String) :
    (List.lookup k al).isSome = true ↔ k ∈ al.map Prod.fst := by
  induction al with
  | nil => simp [List.lookup]
  | cons p t ih =>
    by_cases h : k = p.1
    · simp [List.lookup, h]
    · simp only [List.lookup, List.map_cons, List.mem_cons]
      rw [show (k == p.1) = false from beq_eq_false_iff_ne.mpr h]
      simp [ih, h]

theorem lookup_eq_none_iff {β : Type _} (al : List (String × β)) (k : String) :
    List.lookup k al = none ↔ k ∉ al.map Prod.fst := by
  rw [← lookup_isSome_iff]
  cases List.lookup k al <;> simp

theorem length_sortedUnique (l : List String) :
    (sortedUnique l).length = l.dedup.length := by
  rw [sortedUnique, (List.perm_insertionSort _ _).length_eq,
    ← List.toFinset_card_of_nodup (nodup_uniqueFirst l), toFinset_uniqueFirst,
    List.card_toFinset]

theorem mem_keys_categoryGrowth (df : List Transaccion) (mcs : List CatMonthlyRow)
    (c : String) :
    c ∈ (calculateCategoryGrowth df mcs).map Prod.fst ↔
      (c ∈ df.map (·.category_clean) ∧
        1 < (mcs.filter (fun r => r.category_clean = c)).length) := by
  rw [calculateCategoryGrowth]
  simp only [List.map_filterMap, List.mem_filterMap]
  constructor
  · rintro ⟨a, ha, hfa⟩
    by_cases hcond : 1 < (mcs.filter (fun r => r.category_clean = a)).length
    · simp only [if_pos hcond, Option.map_some] at hfa
      obtain rfl : a = c := by simpa using hfa
      exact ⟨mem_uniqueFirst.mp ha, hcond⟩
    · simp [if_neg hcond] at hfa
  · rintro ⟨hc, hcond⟩
    exact ⟨c, mem_uniqueFirst.mpr hc, by simp [if_pos hcond]⟩

theorem mem_keys_planGrowth (df : List Membresia) (p : String) :
    p ∈ (calculatePlanGrowth df).map Prod.fst ↔
      (p ∈ df.map (·.membership_plan_name) ∧
        1 < (sortedUnique
          ((df.filter (fun t => t.membership_plan_name = p)).map (·.month))).length) := by
  rw [calculatePlanGrowth]
  simp only [List.map_filterMap, List.mem_filterMap]
  constructor
  · rintro ⟨a, ha, hfa⟩
    by_cases hcond : 1 < (sortedUnique
        ((df.filter (fun t => t.membership_plan_name = a)).map (·.month))).length
    · simp only [if_pos hcond, Option.map_some] at hfa
      obtain rfl : a = p := by simpa using hfa
      exact ⟨mem_uniqueFirst.mp ha, hcond⟩
    · simp [if_neg hcond] at hfa
  · rintro ⟨hp, hcond⟩
    exact ⟨p, mem_uniqueFirst.mpr hp, by simp [if_pos hcond]⟩

/-- Claim C3: a category (resp. membership plan) whose per-period summary
has rows in at most one distinct period is entirely absent from the
per-category growth bundle (its key is not present), while a category of
the unified table with rows in two or more distinct periods gets an
entry.  For the total engine the per-category summary is assumed to carry
at most one row per period and category (which the upstream
`groupby(['month', 'month_order', 'category_clean'])` guarantees). -/
theorem category_growth_needs_two_periods :
    (∀ (df : List Transaccion) (mcs : List CatMonthlyRow) (c : String),
      (((mcs.filter (fun r => r.category_clean = c)).map (·.month_order)).Nodup →
        ((((mcs.filter (fun r => r.category_clean = c)).map (·.month_order)).dedup.length ≤ 1 →
          List.lookup c (calculateCategoryGrowth df mcs) = none) ∧
        (c ∈ df.map (·.category_clean) →
          2 ≤ (((mcs.filter (fun r => r.category_clean = c)).map (·.month_order)).dedup.length) →
          ∃ g, List.lookup c (calculateCategoryGrowth df mcs) = some g)))) ∧
    (∀ (df : List Membresia) (p : String),
      ((((df.filter (fun t => t.membership_plan_name = p)).map (·.month)).dedup.length ≤ 1 →
        List.lookup p (calculatePlanGrowth df) = none) ∧
      (2 ≤ (((df.filter (fun t => t.membership_plan_name = p)).map (·.month)).dedup.length) →
        ∃ g, List.lookup p (calculatePlanGrowth df) = some g))) := by
  constructor
  · intro df mcs c hnodup
    have hdedup : ((mcs.filter (fun r => r.category_clean = c)).map (·.month_order)).dedup =
        (mcs.filter (fun r => r.category_clean = c)).map (·.month_order) :=
      List.Nodup.dedup hnodup
    constructor
    · intro hle
      rw [lookup_eq_none_iff, mem_keys_categoryGrowth]
      rintro ⟨-, hgt⟩
      rw [hdedup, List.length_map] at hle
      omega
    · intro hc hge
      rw [← Option.isSome_iff_exists, lookup_isSome_iff, mem_keys_categoryGrowth]
      refine ⟨hc, ?_⟩
      rw [hdedup, List.length_map] at hge
      omega
  · intro df p
    constructor
    · intro hle
      rw [lookup_eq_none_iff, mem_keys_planGrowth]
      rintro ⟨-, hgt⟩
      rw [length_sortedUnique] at hgt
      omega
    · intro hge
      rw [← Option.isSome_iff_exists, lookup_isSome_iff, mem_keys_planGrowth]
      have hp : p ∈ df.map (·.membership_plan_name) := by
        have hne : (df.filter (fun t => t.membership_plan_name = p)).map (·.month) ≠ [] := by
          intro h
          rw [h] at hge
          simp at hge
        have : (df.filter (fun t => t.membership_plan_name = p)) ≠ [] := by
          intro h
          exact hne (by rw [h]; rfl)
        obtain ⟨t, ht⟩ := List.exists_mem_of_ne_nil _ this
        have htp := List.of_mem_filter ht
        have htdf := List.mem_of_mem_filter ht
        exact List.mem_map.mpr ⟨t, htdf, by simpa using htp⟩
      refine ⟨hp, ?_⟩
      rw [length_sortedUnique]
      omega

/-- Sample monthly category summary: category `A` has rows in two periods,
category `B` in one. -/
def mcsEjemplo : List CatMonthlyRow :=
  [⟨"Mayo", 1, "A", 100, 100, 1, 1⟩, ⟨"Junio", 2, "A", 150, 150, 1, 1⟩,
   ⟨"Junio", 2, "B", 50, 50, 1, 1⟩]

/-- Unified table matching `mcsEjemplo`. -/
def dfC3 : List Transaccion :=
  [⟨100, "a", "A", "Mayo", 1⟩, ⟨150, "b", "A", "Junio", 2⟩, ⟨50, "c", "B", "Junio", 2⟩]

/-- Witness for claim C3: on the sample data the single-period category
`B` is absent from the growth bundle and the two-period category `A` is
present. -/
theorem category_growth_needs_two_periods_witness :
    List.lookup "B" (calculateCategoryGrowth dfC3 mcsEjemplo) = none ∧
    ∃ g, List.lookup "A" (calculateCategoryGrowth dfC3 mcsEjemplo) = some g := by
  constructor
  · exact ((category_growth_needs_two_periods.1 dfC3 mcsEjemplo "B") (by decide)).1
      (by decide)
  · exact ((category_growth_needs_two_periods.1 dfC3 mcsEjemplo "A") (by decide)).2
      (by decide) (by decide)

/-! ## Best-growing category / plan (`_get_best_growing_category`,
`_get_best_growing_plan`) -/

/-- One step of the source's loop: keep the candidate whose mean revenue
growth strictly exceeds the best seen so far; `none` models the initial
`-inf`. -/
def bgStep (acc : Option ℚ × String) (e : String × List ℚ) : Option ℚ × String :=
  if 0 < e.2.length then
    match acc.1 with
    | none => (some (mean e.2), e.1)
    | some b => if b < mean e.2 then (some (mean e.2), e.1) else acc
  else acc

/-- The loop of `_get_best_growing_category` / `_get_best_growing_plan`
over `(name, revenue-growth series)` pairs, starting from
`best_growth = -inf`, `best = 'N/A'`. -/
def bestGrowingFrom (entries : List (String × List ℚ)) : String :=
  (entries.foldl bgStep ((none : Option ℚ), "N/A")).2

/-- `TotalAnalytics._get_best_growing_category` over the category growth
bundle. -/
def bestGrowingCategory (cg : List (String × (List ℚ × List ℚ))) : String :=
  bestGrowingFrom (cg.map (fun e => (e.1, e.2.1)))

/-- `MembershipAnalytics._get_best_growing_plan` over the plan growth
bundle. -/
def bestGrowingPlan (pg : List (String × PlanGrowthEntry)) : String :=
  bestGrowingFrom (pg.map (fun e => (e.1, e.2.revenue_growth)))

theorem bgFold_some_spec (entries : List (String × List ℚ)) (b : ℚ) (nm : String)
    (h : ∀ e ∈ entries, e.2 ≠ []) :
    ∃ b', (entries.foldl bgStep (some b, nm)).1 = some b' ∧ b ≤ b' ∧
      (((entries.foldl bgStep (some b, nm)).2 = nm ∧ b' = b) ∨
        (∃ e ∈ entries, (entries.foldl bgStep (some b, nm)).2 = e.1 ∧ b' = mean e.2)) ∧
      ∀ e ∈ entries, mean e.2 ≤ b' := by
  induction entries generalizing b nm with
  | nil => exact ⟨b, rfl, le_refl b, Or.inl ⟨rfl, rfl⟩, by simp⟩
  | cons e t ih =>
    have he : e.2 ≠ [] := h e (List.mem_cons_self _ _)
    have hlen : 0 < e.2.length := List.length_pos.mpr he
    have ht : ∀ x ∈ t, x.2 ≠ [] := fun x hx => h x (List.mem_cons_of_mem _ hx)
    simp only [List.foldl_cons]
    by_cases hlt : b < mean e.2
    · rw [show bgStep (some b, nm) e = (some (mean e.2), e.1) by
        simp [bgStep, hlen, hlt]]
      obtain ⟨b', h1, h2, h3, h4⟩ := ih (mean e.2) e.1 ht
      refine ⟨b', h1, le_trans hlt.le h2, ?_, ?_⟩
      · rcases h3 with ⟨hr, hb⟩ | ⟨x, hx, hr, hb⟩
        · exact Or.inr ⟨e, List.mem_cons_self _ _, hr, hb⟩
        · exact Or.inr ⟨x, List.mem_cons_of_mem _ hx, hr, hb⟩
      · intro x hx
        rcases List.mem_cons.mp hx with rfl | hx'
        · exact h2
        · exact h4 x hx'
    · rw [show bgStep (some b, nm) e = (some b, nm) by simp [bgStep, hlen, hlt]]
      obtain ⟨b', h1, h2, h3, h4⟩ := ih b nm ht
      refine ⟨b', h1, h2, ?_, ?_⟩
      · rcases h3 with hl | ⟨x, hx, hr, hb⟩
        · exact Or.inl hl
        · exact Or.inr ⟨x, List.mem_cons_of_mem _ hx, hr, hb⟩
      · intro x hx
        rcases List.mem_cons.mp hx with rfl | hx'
        · exact le_trans (not_lt.mp hlt) h2
        · exact h4 x hx'

theorem bestGrowingFrom_spec (entries : List (String × List ℚ))
    (h : ∀ e ∈ entries, e.2 ≠ []) (hne : entries ≠ []) :
    ∃ e ∈ entries, bestGrowingFrom entries = e.1 ∧
      ∀ e2 ∈ entries, mean e2.2 ≤ mean e.2 := by
  match entries, hne with
  | e :: t, _ =>
    have he : e.2 ≠ [] := h e (List.mem_cons_self _ _)
    have hlen : 0 < e.2.length := List.length_pos.mpr he
    have ht : ∀ x ∈ t, x.2 ≠ [] := fun x hx => h x (List.mem_cons_of_mem _ hx)
    rw [bestGrowingFrom, List.foldl_cons,
      show bgStep (none, "N/A") e = (some (mean e.2), e.1) by simp [bgStep, hlen]]
    obtain ⟨b', h1, h2, h3, h4⟩ := bgFold_some_spec t (mean e.2) e.1 ht
    rcases h3 with ⟨hr, hb⟩ | ⟨x, hx, hr, hb⟩
    · refine ⟨e, List.mem_cons_self _ _, hr, ?_⟩
      intro e2 he2
      rcases List.mem_cons.mp he2 with rfl | he2'
      · exact le_refl _
      · rw [← hb]
        exact h4 e2 he2'
    · refine ⟨x, List.mem_cons_of_mem _ hx, hr, ?_⟩
      intro e2 he2
      rcases List.mem_cons.mp he2 with rfl | he2'
      · exact hb ▸ h2
      · rw [← hb]
        exact h4 e2 he2'

/-- Claim C8: the best-growing category/plan is `N/A` when the growth
bundle is empty (the computation does not fail), and otherwise it is an
entry of the bundle whose mean revenue-growth rate bounds every other
entry's. -/
theorem best_growing_is_argmax :
    bestGrowingCategory [] = "N/A" ∧
    bestGrowingPlan [] = "N/A" ∧
    (∀ cg : List (String × (List ℚ × List ℚ)),
      (∀ e ∈ cg, e.2.1 ≠ []) → cg ≠ [] →
      ∃ e ∈ cg, bestGrowingCategory cg = e.1 ∧
        ∀ e2 ∈ cg, mean e2.2.1 ≤ mean e.2.1) ∧
    (∀ pg : List (String × PlanGrowthEntry),
      (∀ e ∈ pg, e.2.revenue_growth ≠ []) → pg ≠ [] →
      ∃ e ∈ pg, bestGrowingPlan pg = e.1 ∧
        ∀ e2 ∈ pg, mean e2.2.revenue_growth ≤ mean e.2.revenue_growth) := by
  refine ⟨rfl, rfl, ?_, ?_⟩
  · intro cg hser hne
    have h : ∀ e ∈ cg.map (fun e => (e.1, e.2.1)), e.2 ≠ [] := by
      intro e he
      obtain ⟨x, hx, rfl⟩ := List.mem_map.mp he
      exact hser x hx
    have hne' : cg.map (fun e => (e.1, e.2.1)) ≠ [] := by
      intro hc
      exact hne (List.map_eq_nil_iff.mp hc)
    obtain ⟨e, he, hbest, hbound⟩ := bestGrowingFrom_spec _ h hne'
    obtain ⟨x, hx, rfl⟩ := List.mem_map.mp he
    refine ⟨x, hx, hbest, ?_⟩
    intro e2 he2
    exact hbound (e2.1, e2.2.1) (List.mem_map.mpr ⟨e2, he2, rfl⟩)
  · intro pg hser hne
    have h : ∀ e ∈ pg.map (fun e => (e.1, e.2.revenue_growth)), e.2 ≠ [] := by
      intro e he
      obtain ⟨x, hx, rfl⟩ := List.mem_map.mp he
      exact hser x hx
    have hne' : pg.map (fun e => (e.1, e.2.revenue_growth)) ≠ [] := by
      intro hc
      exact hne (List.map_eq_nil_iff.mp hc)
    obtain ⟨e, he, hbest, hbound⟩ := bestGrowingFrom_spec _ h hne'
    obtain ⟨x, hx, rfl⟩ := List.mem_map.mp he
    refine ⟨x, hx, hbest, ?_⟩
    intro e2 he2
    exact hbound (e2.1, e2.2.revenue_growth) (List.mem_map.mpr ⟨e2, he2, rfl⟩)

/-- Two-entry sample growth bundle: `A` has mean growth 5, `B` has 15. -/
def cgEjemplo : List (String × (List ℚ × List ℚ)) :=
  [("A", ([0, 10], [0, 1])), ("B", ([0, 30], [0, 1]))]

/-- Witness for claim C8 on `cgEjemplo`: the best-growing category is `B`
and it attains the maximum mean growth. -/
theorem best_growing_is_argmax_witness :
    bestGrowingCategory cgEjemplo = "B" ∧
    ∃ e ∈ cgEjemplo, bestGrowingCategory cgEjemplo = e.1 ∧
      ∀ e2 ∈ cgEjemplo, mean e2.2.1 ≤ mean e.2.1 := by
  constructor
  · norm_num [bestGrowingCategory, bestGrowingFrom, bgStep, cgEjemplo, mean]
  · exact best_growing_is_argmax.2.2.1 cgEjemplo (by decide) (by decide)

/-! ## The full stateful engines (`calculate_all_stats`, claim C9)

The Python engines mutate a `stats` dictionary; each helper writes its
keys into the shared dictionary and later helpers read keys written by
earlier ones.  The embedding threads an explicit state whose fields are
`Option`-valued: `none` models an absent key, and the projection step
leaves its field untouched when fewer than 2 periods exist, exactly as
the source only conditionally writes `stats['projections']`. -/

/-- Constructor arguments of `TotalAnalytics`. -/
structure TotalInput where
  combined_df : List Transaccion
  monthly_summary : List MonthlyRow
  monthly_category_summary : List CatMonthlyRow

/-- The total engine's `stats['trends']` dictionary. -/
structure TotalTrends where
  mejor_mes_ingresos : Option String
  peor_mes_ingresos : Option String
  mejor_mes_transacciones : Option String
  mejor_categoria : Option String
  categoria_mas_crecimiento : String
  promedio_crecimiento_ingresos : ℚ
  promedio_crecimiento_transacciones : ℚ

/-- The total engine's `stats['seasonality']` dictionary. -/
structure Seasonality where
  coefficient_variation : ℝ
  pattern : String
  peak_month : Option String
  low_month : Option String

/-- The total engine's `stats['diversity']` dictionary. -/
structure Diversity where
  hhi_index : ℚ
  shannon_entropy : ℝ
  concentration_level : String
  dominant_category_share : ℚ
  category_count : ℕ

/-- The total engine's `stats` dictionary; a `none` field is a key that
has not been written. -/
structure TotalStats where
  total_revenue : Option ℚ := none
  total_transactions : Option ℕ := none
  unique_customers : Option ℕ := none
  avg_ticket : Option ℚ := none
  median_ticket : Option ℚ := none
  min_transaction : Option ℚ := none
  max_transaction : Option ℚ := none
  std_ticket : Option ℝ := none
  by_category : Option (List CatRow) := none
  category_participation : Option (List (String × ℚ)) := none
  growth_rates : Option GrowthBundle := none
  absolute_changes : Option GrowthBundle := none
  category_growth : Option (List (String × (List ℚ × List ℚ))) := none
  trends : Option TotalTrends := none
  seasonality : Option Seasonality := none
  projections : Option (List (String × Value)) := none
  diversity : Option Diversity := none

/-- `TotalAnalytics._calculate_general_stats`. -/
noncomputable def calculateGeneralStatsStep (inp : TotalInput) (s : TotalStats) :
    TotalStats :=
  let amts := inp.combined_df.map (·.amount)
  { s with
    total_revenue := some amts.sum
    total_transactions := some inp.combined_df.length
    unique_customers := some (inp.combined_df.map (·.email)).dedup.length
    avg_ticket := some (mean amts)
    median_ticket := some (median amts)
    min_transaction := some ((amts.minimum).untop' 0)
    max_transaction := some ((amts.maximum).unbot' 0)
    std_ticket := some (pandasStd amts) }

/-- `TotalAnalytics._calculate_category_stats`; the participation series
reads `stats['total_revenue']` written by the previous step. -/
def calculateCategoryStatsStep (inp : TotalInput) (s : TotalStats) : TotalStats :=
  { s with
    by_category := some (calculateCategoryStats inp.combined_df)
    category_participation := some ((groupedCategoryRows inp.combined_df).map
      (fun r => (r.category, round1 (r.ingresos / s.total_revenue.getD 0 * 100)))) }

/-- `TotalAnalytics._calculate_growth_rates`. -/
def calculateGrowthRatesStep (inp : TotalInput) (s : TotalStats) : TotalStats :=
  { s with
    growth_rates := some (calculateGrowthRates inp.monthly_summary)
    absolute_changes := some (calculateAbsoluteChanges inp.monthly_summary) }

/-- `TotalAnalytics._calculate_category_growth`. -/
def calculateCategoryGrowthStep (inp : TotalInput) (s : TotalStats) : TotalStats :=
  { s with
    category_growth :=
      some (calculateCategoryGrowth inp.combined_df inp.monthly_category_summary) }

/-- `TotalAnalytics._analyze_seasonality`, called at the end of
`_calculate_trends`. -/
noncomputable def analyzeSeasonalityStep (inp : TotalInput) (s : TotalStats) :
    TotalStats :=
  let revPairs := inp.monthly_summary.map (fun r => (r.month, r.ingresos_total))
  let revs := inp.monthly_summary.map (·.ingresos_total)
  { s with
    seasonality := some
      { coefficient_variation := seasonalityCV revs
        pattern := seasonalityPattern revs
        peak_month := idxmax revPairs
        low_month := idxmin revPairs } }

/-- `TotalAnalytics._calculate_trends`; reads `by_category`,
`category_growth` and `growth_rates` from the state written by earlier
steps of the same run. -/
noncomputable def calculateTrendsStep (inp : TotalInput) (s : TotalStats) : TotalStats :=
  let revPairs := inp.monthly_summary.map (fun r => (r.month, r.ingresos_total))
  let transPairs := inp.monthly_summary.map (fun r => (r.month, r.total_transacciones))
  analyzeSeasonalityStep inp
    { s with
      trends := some
        { mejor_mes_ingresos := idxmax revPairs
          peor_mes_ingresos := idxmin revPairs
          mejor_mes_transacciones := idxmax transPairs
          mejor_categoria := (s.by_category.getD []).head?.map (·.category)
          categoria_mas_crecimiento := bestGrowingCategory (s.category_growth.getD [])
          promedio_crecimiento_ingresos :=
            mean ((s.growth_rates.getD ⟨[], [], [], []⟩).ingresos)
          promedio_crecimiento_transacciones :=
            mean ((s.growth_rates.getD ⟨[], [], [], []⟩).transacciones) } }

/-- `TotalAnalytics._calculate_projections`: the key is written only when
at least 2 periods exist; otherwise the state is left untouched. -/
def calculateProjectionsStep (inp : TotalInput) (s : TotalStats) : TotalStats :=
  match totalProjections inp.monthly_summary
      ((s.growth_rates.getD ⟨[], [], [], []⟩).ingresos) with
  | some d => { s with projections := some d }
  | none => s

/-- `TotalAnalytics._calculate_diversity_metrics`; reads `by_category`. -/
noncomputable def calculateDiversityStep (_inp : TotalInput) (s : TotalStats) :
    TotalStats :=
  let revs := (s.by_category.getD []).map (·.ingresos)
  { s with
    diversity := some
      { hhi_index := hhiIndex revs
        shannon_entropy := shannonEntropy revs
        concentration_level := concentrationLevel revs
        dominant_category_share := dominantCategoryShare revs
        category_count := categoryCount revs } }

/-- `TotalAnalytics.calculate_all_stats`: the source's fixed sequence of
mutating helpers, as a function from the incoming `stats` state to the
final one. -/
noncomputable def calculateAllStats (inp : TotalInput) (s : TotalStats) : TotalStats :=
  calculateDiversityStep inp
    (calculateProjectionsStep inp
      (calculateTrendsStep inp
        (calculateCategoryGrowthStep inp
          (calculateGrowthRatesStep inp
            (calculateCategoryStatsStep inp
              (calculateGeneralStatsStep inp s))))))

/-- Constructor arguments of `MembershipAnalytics`. -/
structure MembershipInput where
  combined_df : List Membresia
  monthly_summary : List MMonthlyRow

/-- The membership engine's `stats['trends']` dictionary. -/
structure MTrends where
  mejor_mes_ingresos : Option String
  peor_mes_ingresos : Option String
  mejor_mes_membresias : Option String
  mayor_crecimiento_ingresos : Option String
  mayor_caida_ingresos : Option String
  promedio_crecimiento_ingresos : ℚ
  promedio_crecimiento_membresias : ℚ
  mejor_plan_crecimiento : String

/-- The membership engine's `stats` dictionary. -/
structure MembershipStats where
  total_revenue : Option ℚ := none
  total_memberships : Option ℕ := none
  unique_customers : Option ℕ := none
  avg_ticket : Option ℚ := none
  by_plan : Option (List PlanRow) := none
  growth_rates : Option MGrowthBundle := none
  absolute_changes : Option MGrowthBundle := none
  plan_growth : Option (List (String × PlanGrowthEntry)) := none
  trends : Option MTrends := none
  projections : Option (List (String × Value)) := none

/-- `MembershipAnalytics._calculate_general_stats`. -/
def mGeneralStatsStep (inp : MembershipInput) (s : MembershipStats) : MembershipStats :=
  let amts := inp.combined_df.map (·.amount)
  { s with
    total_revenue := some amts.sum
    total_memberships := some inp.combined_df.length
    unique_customers := some (inp.combined_df.map (·.email)).dedup.length
    avg_ticket := some (mean amts) }

/-- `MembershipAnalytics._calculate_plan_stats`. -/
def mPlanStatsStep (inp : MembershipInput) (s : MembershipStats) : MembershipStats :=
  { s with by_plan := some (calculatePlanStats inp.combined_df) }

/-- `MembershipAnalytics._calculate_growth_rates`, which also computes
`plan_growth` via `_calculate_plan_growth`. -/
def mGrowthRatesStep (inp : MembershipInput) (s : MembershipStats) : MembershipStats :=
  { s with
    growth_rates := some (mCalculateGrowthRates inp.monthly_summary)
    absolute_changes := some (mCalculateAbsoluteChanges inp.monthly_summary)
    plan_growth := some (calculatePlanGrowth inp.combined_df) }

/-- `MembershipAnalytics._calculate_trends`; the growth-extrema labels
index the growth series by month. -/
def mTrendsStep (inp : MembershipInput) (s : MembershipStats) : MembershipStats :=
  let revPairs := inp.monthly_summary.map (fun r => (r.month, r.ingresos_total))
  let memPairs := inp.monthly_summary.map (fun r => (r.month, r.total_membresias))
  let growthPairs := (inp.monthly_summary.map (·.month)).zip
    ((s.growth_rates.getD ⟨[], [], [], []⟩).ingresos)
  { s with
    trends := some
      { mejor_mes_ingresos := idxmax revPairs
        peor_mes_ingresos := idxmin revPairs
        mejor_mes_membresias := idxmax memPairs
        mayor_crecimiento_ingresos := idxmax growthPairs
        mayor_caida_ingresos := idxmin growthPairs
        promedio_crecimiento_ingresos :=
          mean ((s.growth_rates.getD ⟨[], [], [], []⟩).ingresos)
        promedio_crecimiento_membresias :=
          mean ((s.growth_rates.getD ⟨[], [], [], []⟩).membresias)
        mejor_plan_crecimiento := bestGrowingPlan (s.plan_growth.getD []) } }

/-- `MembershipAnalytics._calculate_projections`. -/
def mProjectionsStep (inp : MembershipInput) (s : MembershipStats) : MembershipStats :=
  match membershipProjections inp.monthly_summary with
  | some d => { s with projections := some d }
  | none => s

/-- `MembershipAnalytics.calculate_all_stats`. -/
def mCalculateAllStats (inp : MembershipInput) (s : MembershipStats) : MembershipStats :=
  mProjectionsStep inp
    (mTrendsStep inp
      (mGrowthRatesStep inp
        (mPlanStatsStep inp
          (mGeneralStatsStep inp s))))

/-- Claim C9: both engines are idempotent over their input — running
`calculate_all_stats` a second time on the state left by the first run
(same unified table and monthly summaries) reproduces exactly the same
statistics state, every bundle included. -/
theorem calculate_all_stats_idempotent :
    (∀ (inp : TotalInput) (s : TotalStats),
      calculateAllStats inp (calculateAllStats inp s) = calculateAllStats inp s) ∧
    (∀ (inp : MembershipInput) (s : MembershipStats),
      mCalculateAllStats inp (mCalculateAllStats inp s) = mCalculateAllStats inp s) := by
  constructor
  · intro inp s
    simp only [calculateAllStats, calculateGeneralStatsStep, calculateCategoryStatsStep,
      calculateGrowthRatesStep, calculateCategoryGrowthStep, calculateTrendsStep,
      analyzeSeasonalityStep, calculateProjectionsStep, calculateDiversityStep,
      Option.getD_some]
    rcases hp : totalProjections inp.monthly_summary
        (calculateGrowthRates inp.monthly_summary).ingresos with _ | d <;>
      simp [hp]
  · intro inp s
    simp only [mCalculateAllStats, mGeneralStatsStep, mPlanStatsStep,
      mGrowthRatesStep, mTrendsStep, mProjectionsStep, Option.getD_some]
    rcases hp : membershipProjections inp.monthly_summary with _ | d <;>
      simp [hp]

end ReporteNexus
